import Mathlib

/-!
Verification of the dependency-injection container (`Injector`) of this
repository.  The TypeScript source keeps, per container, a `Map` from
injection tokens to `Registration` records and a `Map` of singleton
instances; resolution (`getInstance`) dispatches on the registered
lifestyle, building instances recursively through `createInstance`.

Embedding choices:
* Tokens are natural numbers (TS uses symbols; only identity matters).
* A resolved instance is a `Value`: object identity is an allocation id,
  drawn from a monotone counter threaded through resolution, so equality
  of `Value`s coincides with the `===` identity of the TS runtime.  A
  built object records the class tag and the exact ordered argument list
  the builder was invoked with; an argument is a literal constructor
  parameter or a reference to a resolved instance (TS passes object
  references).
* The repository's factories (for example `() => new DatabaseStorage()`)
  construct one fresh instance per call, so a factory is embedded as the
  tag of the class it instantiates and a factory call allocates one
  fresh object with no constructor arguments.
* The TS `Map` is embedded as an association list with overwrite-on-set
  (`mapSet` prepends, `mapGet` takes the most recent binding).
* Mutation of `this.singletons` and of the per-scope cache becomes
  explicit state passing (`ResState`); thrown exceptions become
  `Except ResolveError`.
* The resolution recursion is unguarded in the source (a cyclic graph
  exhausts the call stack); the embedding indexes `getInstance` by fuel,
  one unit per stack frame, and a fuel-exhaustion error stands for the
  stack overflow.  The helpers `resolveSingleton`, `resolveScoped`,
  `createInstance`, `resolveDeps` take the next-level resolver
  (`this.getInstance` at the next stack depth) as a parameter.
-/

namespace DI

inductive LifeStyle where
  | PerRequest
  | Scoped
  | Singleton
deriving DecidableEq, Repr

abbrev Token := Nat

/-- One argument of a builder invocation: a literal constructor parameter
or a reference to an already-resolved instance, named by its allocation
identity. -/
inductive Arg where
  | lit : Nat → Arg
  | ref : Nat → Arg
deriving DecidableEq, Repr

/-- A resolved instance: built by class (or factory) `tag`, with allocation
identity `id` (two instances are the same TS object exactly when their ids
are equal) and the ordered argument list `args` the builder was invoked
with. -/
structure Value where
  tag : Nat
  id : Nat
  args : List Arg
deriving DecidableEq, Repr

/-- Passing a resolved instance to a builder passes its reference. -/
def Value.toArg (v : Value) : Arg := .ref v.id

/-- Mirrors the TS `Registration` interface: `implementation` is the class
(`null` for factory registrations), plus lifestyle, ordered dependency
tokens, ordered literal constructor parameters, and the optional factory. -/
structure Registration where
  implementation : Option Nat
  lifestyle : LifeStyle
  dependencies : List Token
  constructorParams : List Arg
  factory : Option Nat
deriving DecidableEq, Repr

/-- The two `throw`s of `getInstance` plus fuel exhaustion, which stands for
the call-stack overflow a cyclic dependency graph causes in the source. -/
inductive ResolveError where
  | notRegistered : Token → ResolveError
  | noActiveScope : ResolveError
  | stackOverflow : ResolveError
deriving DecidableEq, Repr

/-- `Map.get` of the TS runtime: the most recent binding of the key. -/
def mapGet {α : Type} (m : List (Token × α)) (k : Token) : Option α :=
  match m with
  | [] => none
  | (k', v) :: rest => if k' = k then some v else mapGet rest k

/-- `Map.set` of the TS runtime: overwrite-on-conflict (the new binding
shadows any older one). -/
def mapSet {α : Type} (m : List (Token × α)) (k : Token) (v : α) : List (Token × α) :=
  (k, v) :: m

/-- `Map.has` of the TS runtime. -/
def mapHas {α : Type} (m : List (Token × α)) (k : Token) : Bool :=
  (mapGet m k).isSome

/-- The mutable state threaded through one resolution: the container's
singleton cache, the scope cache passed to `getInstance` (absent when
resolving directly), and the allocation counter that realises object
identity. -/
structure ResState where
  singletons : List (Token × Value)
  scopeCache : Option (List (Token × Value))
  nextId : Nat
deriving DecidableEq, Repr

/-- The type of `this.getInstance(·, scopeCache)` at a fixed stack depth. -/
abbrev Resolver := Token → ResState → Except ResolveError (Value × ResState)

/-- `registration.dependencies.map((depToken) => this.getInstance(depToken, scopeCache))`:
resolve the declared dependency tokens in order, threading the state. -/
def resolveDeps (resolve : Resolver) :
    List Token → ResState → Except ResolveError (List Value × ResState)
  | [], s => .ok ([], s)
  | d :: rest, s =>
    match resolve d s with
    | .error e => .error e
    | .ok (v, s') =>
      match resolveDeps resolve rest s' with
      | .error e => .error e
      | .ok (vs, s'') => .ok (v :: vs, s'')

/-- `Injector.createInstance`: a factory registration is invoked directly
(dependency tokens are not consulted); otherwise the declared dependencies
are resolved in order and the class is constructed with the resolved
dependencies followed by the literal constructor parameters.  The source
asserts `registration.implementation!` non-null there, which holds for
every stored registration; `getD 0` stands for that assertion. -/
def createInstance (resolve : Resolver) (registration : Registration) (s : ResState) :
    Except ResolveError (Value × ResState) :=
  match registration.factory with
  | some f => .ok (Value.mk f s.nextId [], { s with nextId := s.nextId + 1 })
  | none =>
    match resolveDeps resolve registration.dependencies s with
    | .error e => .error e
    | .ok (vs, s') =>
      .ok (Value.mk (registration.implementation.getD 0) s'.nextId
             (vs.map Value.toArg ++ registration.constructorParams),
           { s' with nextId := s'.nextId + 1 })

/-- `Injector.resolveSingleton`: build and cache on first resolution, return
the cached instance afterwards.  (The source performs `has`/`set`/`get` on
`this.singletons`; `get` right after `set` returns the value just stored.) -/
def resolveSingleton (resolve : Resolver) (token : Token) (registration : Registration)
    (s : ResState) : Except ResolveError (Value × ResState) :=
  match mapGet s.singletons token with
  | some v => .ok (v, s)
  | none =>
    match createInstance resolve registration s with
    | .error e => .error e
    | .ok (v, s') => .ok (v, { s' with singletons := mapSet s'.singletons token v })

/-- `Injector.resolveScoped`: like `resolveSingleton` but against the scope
cache, which nested resolutions may already have extended. -/
def resolveScoped (resolve : Resolver) (token : Token) (registration : Registration)
    (s : ResState) : Except ResolveError (Value × ResState) :=
  match s.scopeCache with
  | none => .error .noActiveScope
  | some cache =>
    match mapGet cache token with
    | some v => .ok (v, s)
    | none =>
      match createInstance resolve registration s with
      | .error e => .error e
      | .ok (v, s') =>
        match s'.scopeCache with
        | none => .error .noActiveScope
        | some cache' => .ok (v, { s' with scopeCache := some (mapSet cache' token v) })

/-- `Injector.getInstance`: look the token up, fail with `notRegistered`
when absent, and dispatch on the lifestyle — `Singleton` and `Scoped` go
through their caches (`Scoped` first demanding a scope context), everything
else (the `default` branch, i.e. `PerRequest`) builds a fresh instance.
`fuel` counts remaining stack depth. -/
def getInstance (c : List (Token × Registration)) :
    Nat → Token → ResState → Except ResolveError (Value × ResState)
  | 0, _, _ => .error .stackOverflow
  | fuel + 1, token, s =>
    match mapGet c token with
    | none => .error (.notRegistered token)
    | some registration =>
      match registration.lifestyle with
      | .Singleton => resolveSingleton (getInstance c fuel) token registration s
      | .Scoped =>
        match s.scopeCache with
        | none => .error .noActiveScope
        | some _ => resolveScoped (getInstance c fuel) token registration s
      | _ => createInstance (getInstance c fuel) registration s

/-- The container: registry, singleton cache and allocation counter. -/
structure Injector where
  container : List (Token × Registration)
  singletons : List (Token × Value)
  nextId : Nat
deriving DecidableEq, Repr

def Injector.empty : Injector := ⟨[], [], 0⟩

/-- `Injector.register`: store a constructor-style registration (factory
field absent), overwriting any prior registration of the token. -/
def Injector.register (inj : Injector) (token : Token) (classType : Nat)
    (lifestyle : LifeStyle) (dependencies : List Token)
    (constructorParams : List Arg) : Injector :=
  let r := Registration.mk (some classType) lifestyle dependencies constructorParams none
  { inj with container := mapSet inj.container token r }

/-- `Injector.registerFactory`: store a factory-style registration
(`implementation: null`, empty dependency and parameter lists). -/
def Injector.registerFactory (inj : Injector) (token : Token) (factory : Nat)
    (lifestyle : LifeStyle) : Injector :=
  let r := Registration.mk none lifestyle [] [] (some factory)
  { inj with container := mapSet inj.container token r }

/-- Direct resolution against the container (no scope context passed). -/
def Injector.getInstanceTop (inj : Injector) (fuel : Nat) (token : Token) :
    Except ResolveError (Value × Injector) :=
  match getInstance inj.container fuel token ⟨inj.singletons, none, inj.nextId⟩ with
  | .error e => .error e
  | .ok (v, s) => .ok (v, { inj with singletons := s.singletons, nextId := s.nextId })

/-- `Injector.createScope` binds a freshly created, empty scope cache; the
returned handle resolves every token against that cache.  The handle is
embedded as the cache itself, threaded by the caller. -/
def Injector.createScope : List (Token × Value) := []

/-- Resolution through a scope handle: `scope.resolve(token)` calls
`this.getInstance(token, scopeCache)`. -/
def Injector.resolveInScope (inj : Injector) (fuel : Nat) (token : Token)
    (cache : List (Token × Value)) :
    Except ResolveError (Value × Injector × List (Token × Value)) :=
  match getInstance inj.container fuel token ⟨inj.singletons, some cache, inj.nextId⟩ with
  | .error e => .error e
  | .ok (v, s) =>
    .ok (v, { inj with singletons := s.singletons, nextId := s.nextId },
         s.scopeCache.getD cache)

instance {ε α : Type} [DecidableEq ε] [DecidableEq α] : DecidableEq (Except ε α) :=
  fun a b =>
    match a, b with
    | .error e, .error e' => if h : e = e' then .isTrue (by rw [h]) else .isFalse (by simp [h])
    | .ok v, .ok v' => if h : v = v' then .isTrue (by rw [h]) else .isFalse (by simp [h])
    | .error _, .ok _ => .isFalse (by simp)
    | .ok _, .error _ => .isFalse (by simp)

/-! ### Basic facts about the map embedding -/

theorem mapGet_set_self {α : Type} (m : List (Token × α)) (k : Token) (v : α) :
    mapGet (mapSet m k v) k = some v := by
  simp [mapGet, mapSet]

theorem mapGet_set_ne {α : Type} (m : List (Token × α)) (k k' : Token) (v : α)
    (h : k ≠ k') : mapGet (mapSet m k v) k' = mapGet m k' := by
  simp [mapGet, mapSet, h]

theorem getInstance_fuel_pos {c : List (Token × Registration)} {fuel : Nat} {t : Token}
    {s : ResState} {v : Value} {s' : ResState}
    (h : getInstance c fuel t s = .ok (v, s')) : ∃ k, fuel = k + 1 := by
  cases fuel with
  | zero => simp [getInstance] at h
  | succ k => exact ⟨k, rfl⟩

/-! ### The resolution invariant

`StepOk c s s'` collects what one successful resolution step does to the
state: the allocation counter is monotone, existing singleton-cache and
scope-cache entries survive unchanged, absence/presence of the scope
context is preserved, and a cache entry can change only at a key whose
registration has the matching lifestyle.  `StepErr` records what a thrown
error implies about the container and the entry state. -/

structure StepOk (c : List (Token × Registration)) (s s' : ResState) : Prop where
  mono : s.nextId ≤ s'.nextId
  sglPres : ∀ k w, mapGet s.singletons k = some w → mapGet s'.singletons k = some w
  scNone : s.scopeCache = none → s'.scopeCache = none
  scSome : ∀ m, s.scopeCache = some m → ∃ m', s'.scopeCache = some m' ∧
      ∀ k w, mapGet m k = some w → mapGet m' k = some w
  sglFrame : ∀ k, mapGet s'.singletons k ≠ mapGet s.singletons k →
      ∃ rk, mapGet c k = some rk ∧ rk.lifestyle = LifeStyle.Singleton
  scFrame : ∀ m m' k, s.scopeCache = some m → s'.scopeCache = some m' →
      mapGet m' k ≠ mapGet m k →
      ∃ rk, mapGet c k = some rk ∧ rk.lifestyle = LifeStyle.Scoped

structure StepErr (c : List (Token × Registration)) (s : ResState) (e : ResolveError) : Prop where
  nr : ∀ x, e = .notRegistered x → mapGet c x = none
  nas : e = .noActiveScope → s.scopeCache = none

/-- A resolver (a stack level of `this.getInstance`) whose successes satisfy
`StepOk` and whose failures satisfy `StepErr`. -/
def ResolverInv (c : List (Token × Registration)) (resolve : Resolver) : Prop :=
  (∀ t s v s', resolve t s = .ok (v, s') → StepOk c s s') ∧
  (∀ t s e, resolve t s = .error e → StepErr c s e)

theorem stepOk_refl (c : List (Token × Registration)) (s : ResState) : StepOk c s s where
  mono := le_refl _
  sglPres := fun _ _ h => h
  scNone := fun h => h
  scSome := fun m h => ⟨m, h, fun _ _ hw => hw⟩
  sglFrame := fun _ h => absurd rfl h
  scFrame := fun m m' _ hm hm' h => by
    rw [hm] at hm'
    obtain rfl := Option.some_inj.mp hm'
    exact absurd rfl h

theorem stepOk_trans {c : List (Token × Registration)} {s₁ s₂ s₃ : ResState}
    (h₁ : StepOk c s₁ s₂) (h₂ : StepOk c s₂ s₃) : StepOk c s₁ s₃ where
  mono := le_trans h₁.mono h₂.mono
  sglPres := fun k w h => h₂.sglPres k w (h₁.sglPres k w h)
  scNone := fun h => h₂.scNone (h₁.scNone h)
  scSome := fun m h => by
    obtain ⟨m', hm', hp⟩ := h₁.scSome m h
    obtain ⟨m'', hm'', hp'⟩ := h₂.scSome m' hm'
    exact ⟨m'', hm'', fun k w hw => hp' k w (hp k w hw)⟩
  sglFrame := fun k h => by
    by_cases hmid : mapGet s₂.singletons k = mapGet s₁.singletons k
    · exact h₂.sglFrame k (by rw [hmid] at *; exact h)
    · exact h₁.sglFrame k hmid
  scFrame := fun m m'' k hm hm'' h => by
    obtain ⟨m', hm', _⟩ := h₁.scSome m hm
    by_cases hmid : mapGet m' k = mapGet m k
    · exact h₂.scFrame m' m'' k hm' hm'' (by rw [hmid]; exact h)
    · exact h₁.scFrame m m' k hm hm' hmid

theorem stepErr_lift {c : List (Token × Registration)} {s₁ s₂ : ResState} {e : ResolveError}
    (hok : StepOk c s₁ s₂) (herr : StepErr c s₂ e) : StepErr c s₁ e where
  nr := herr.nr
  nas := fun h => by
    cases hsc : s₁.scopeCache with
    | none => rfl
    | some m =>
      obtain ⟨m', hm', _⟩ := hok.scSome m hsc
      rw [herr.nas h] at hm'
      cases hm'

theorem stepOk_alloc (c : List (Token × Registration)) (s : ResState) (n : Nat)
    (h : s.nextId ≤ n) : StepOk c s { s with nextId := n } where
  mono := h
  sglPres := fun _ _ hw => hw
  scNone := fun hsc => hsc
  scSome := fun m hm => ⟨m, hm, fun _ _ hw => hw⟩
  sglFrame := fun _ hk => absurd rfl hk
  scFrame := fun m m' _ hm hm' hk => by
    rw [hm] at hm'
    obtain rfl := Option.some_inj.mp hm'
    exact absurd rfl hk

theorem resolveDeps_ok {c : List (Token × Registration)} {resolve : Resolver}
    (hres : ResolverInv c resolve) (ds : List Token) :
    ∀ s vs s', resolveDeps resolve ds s = .ok (vs, s') → StepOk c s s' := by
  induction ds with
  | nil =>
    intro s vs s' h
    simp only [resolveDeps, Except.ok.injEq, Prod.mk.injEq] at h
    rw [← h.2]
    exact stepOk_refl c s
  | cons d rest ih =>
    intro s vs s' h
    simp only [resolveDeps] at h
    split at h
    · simp at h
    · rename_i v s₁ h1
      split at h
      · simp at h
      · rename_i vs₂ s₂ h2
        rw [Except.ok.injEq, Prod.mk.injEq] at h
        rw [← h.2]
        exact stepOk_trans (hres.1 d s v s₁ h1) (ih s₁ vs₂ s₂ h2)

theorem resolveDeps_err {c : List (Token × Registration)} {resolve : Resolver}
    (hres : ResolverInv c resolve) (ds : List Token) :
    ∀ s e, resolveDeps resolve ds s = .error e → StepErr c s e := by
  induction ds with
  | nil => intro s e h; simp [resolveDeps] at h
  | cons d rest ih =>
    intro s e h
    simp only [resolveDeps] at h
    split at h
    · rename_i e' h1
      rw [Except.error.injEq] at h
      rw [← h]
      exact hres.2 d s e' h1
    · rename_i v s₁ h1
      split at h
      · rename_i e' h2
        rw [Except.error.injEq] at h
        rw [← h]
        exact stepErr_lift (hres.1 d s v s₁ h1) (ih s₁ e' h2)
      · simp at h

theorem createInstance_ok {c : List (Token × Registration)} {resolve : Resolver}
    (hres : ResolverInv c resolve) {reg : Registration} {s : ResState} {v : Value}
    {s' : ResState} (h : createInstance resolve reg s = .ok (v, s')) : StepOk c s s' := by
  simp only [createInstance] at h
  split at h
  · rw [Except.ok.injEq, Prod.mk.injEq] at h
    rw [← h.2]
    exact stepOk_alloc c s (s.nextId + 1) (Nat.le_succ _)
  · split at h
    · simp at h
    · rename_i vs s₁ hdeps
      rw [Except.ok.injEq, Prod.mk.injEq] at h
      rw [← h.2]
      exact stepOk_trans (resolveDeps_ok hres reg.dependencies s vs s₁ hdeps)
        (stepOk_alloc c s₁ (s₁.nextId + 1) (Nat.le_succ _))

theorem createInstance_err {c : List (Token × Registration)} {resolve : Resolver}
    (hres : ResolverInv c resolve) {reg : Registration} {s : ResState} {e : ResolveError}
    (h : createInstance resolve reg s = .error e) : StepErr c s e := by
  simp only [createInstance] at h
  split at h
  · simp at h
  · split at h
    · rename_i e' hdeps
      rw [Except.error.injEq] at h
      rw [← h]
      exact resolveDeps_err hres reg.dependencies s e' hdeps
    · simp at h

theorem resolveSingleton_ok {c : List (Token × Registration)} {resolve : Resolver}
    (hres : ResolverInv c resolve) {t : Token} {reg : Registration} {s : ResState}
    {v : Value} {s' : ResState}
    (hreg : mapGet c t = some reg) (hls : reg.lifestyle = LifeStyle.Singleton)
    (h : resolveSingleton resolve t reg s = .ok (v, s')) : StepOk c s s' := by
  simp only [resolveSingleton] at h
  split at h
  · rw [Except.ok.injEq, Prod.mk.injEq] at h
    rw [← h.2]
    exact stepOk_refl c s
  · rename_i hnone
    split at h
    · simp at h
    · rename_i v₁ s₁ hcr
      rw [Except.ok.injEq, Prod.mk.injEq] at h
      rw [← h.2]
      have A := createInstance_ok hres hcr
      exact {
        mono := A.mono
        sglPres := fun k w hw => by
          have hkt : t ≠ k := fun hkt => by rw [hkt] at hnone; rw [hnone] at hw; cases hw
          rw [mapGet_set_ne _ _ _ _ hkt]
          exact A.sglPres k w hw
        scNone := A.scNone
        scSome := A.scSome
        sglFrame := fun k hk => by
          by_cases hkt : t = k
          · rw [← hkt]; exact ⟨reg, hreg, hls⟩
          · rw [mapGet_set_ne _ _ _ _ hkt] at hk
            exact A.sglFrame k hk
        scFrame := A.scFrame }

theorem resolveSingleton_err {c : List (Token × Registration)} {resolve : Resolver}
    (hres : ResolverInv c resolve) {t : Token} {reg : Registration} {s : ResState}
    {e : ResolveError}
    (h : resolveSingleton resolve t reg s = .error e) : StepErr c s e := by
  simp only [resolveSingleton] at h
  split at h
  · simp at h
  · split at h
    · rename_i e' hcr
      rw [Except.error.injEq] at h
      rw [← h]
      exact createInstance_err hres hcr
    · simp at h

theorem resolveScoped_ok {c : List (Token × Registration)} {resolve : Resolver}
    (hres : ResolverInv c resolve) {t : Token} {reg : Registration} {s : ResState}
    {v : Value} {s' : ResState}
    (hreg : mapGet c t = some reg) (hls : reg.lifestyle = LifeStyle.Scoped)
    (h : resolveScoped resolve t reg s = .ok (v, s')) : StepOk c s s' := by
  simp only [resolveScoped] at h
  split at h
  · simp at h
  · rename_i cache hsc
    split at h
    · rw [Except.ok.injEq, Prod.mk.injEq] at h
      rw [← h.2]
      exact stepOk_refl c s
    · rename_i hnone
      split at h
      · simp at h
      · rename_i v₁ s₁ hcr
        split at h
        · simp at h
        · rename_i cache' hsc₁
          rw [Except.ok.injEq, Prod.mk.injEq] at h
          obtain ⟨rfl, rfl⟩ := h
          have A := createInstance_ok hres hcr
          exact {
            mono := A.mono
            sglPres := A.sglPres
            scNone := fun hn => by rw [hsc] at hn; cases hn
            scSome := fun m hm => by
              rw [hsc] at hm
              obtain rfl := Option.some_inj.mp hm
              refine ⟨_, rfl, fun k w hw => ?_⟩
              have hkt : t ≠ k := fun hkt => by rw [hkt] at hnone; rw [hnone] at hw; cases hw
              rw [mapGet_set_ne _ _ _ _ hkt]
              obtain ⟨m', hm', hp⟩ := A.scSome cache hsc
              rw [hsc₁] at hm'
              obtain rfl := Option.some_inj.mp hm'
              exact hp k w hw
            sglFrame := A.sglFrame
            scFrame := fun m m'' k hm hm'' hk => by
              rw [hsc] at hm
              obtain rfl := Option.some_inj.mp hm
              obtain rfl := Option.some_inj.mp hm''
              by_cases hkt : t = k
              · rw [← hkt]; exact ⟨reg, hreg, hls⟩
              · rw [mapGet_set_ne _ _ _ _ hkt] at hk
                exact A.scFrame cache cache' k hsc hsc₁ hk }

theorem resolveScoped_err {c : List (Token × Registration)} {resolve : Resolver}
    (hres : ResolverInv c resolve) {t : Token} {reg : Registration} {s : ResState}
    {e : ResolveError}
    (h : resolveScoped resolve t reg s = .error e) : StepErr c s e := by
  simp only [resolveScoped] at h
  split at h
  · rename_i hsc
    rw [Except.error.injEq] at h
    rw [← h]
    exact ⟨fun x hx => (nomatch hx), fun _ => hsc⟩
  · rename_i cache hsc
    split at h
    · simp at h
    · split at h
      · rename_i e' hcr
        rw [Except.error.injEq] at h
        rw [← h]
        exact createInstance_err hres hcr
      · rename_i v₁ s₁ hcr
        split at h
        · rename_i hsc₁
          obtain ⟨m', hm', _⟩ := (createInstance_ok hres hcr).scSome cache hsc
          rw [hsc₁] at hm'
          cases hm'
        · simp at h

/-- The master invariant: every stack level of `getInstance` satisfies
`StepOk` on success and `StepErr` on failure. -/
theorem getInstance_inv (c : List (Token × Registration)) :
    ∀ fuel, ResolverInv c (getInstance c fuel) := by
  intro fuel
  induction fuel with
  | zero =>
    refine ⟨fun t s v s' h => by simp [getInstance] at h, fun t s e h => ?_⟩
    simp only [getInstance, Except.error.injEq] at h
    rw [← h]
    exact ⟨fun x hx => (nomatch hx), fun hx => (nomatch hx)⟩
  | succ fuel ih =>
    constructor
    · intro t s v s' h
      simp only [getInstance] at h
      split at h
      · simp at h
      · rename_i reg hreg
        split at h
        · rename_i hls
          exact resolveSingleton_ok ih hreg hls h
        · rename_i hls
          split at h
          · simp at h
          · exact resolveScoped_ok ih hreg hls h
        · exact createInstance_ok ih h
    · intro t s e h
      simp only [getInstance] at h
      split at h
      · rename_i hreg
        rw [Except.error.injEq] at h
        rw [← h]
        refine ⟨fun x hx => ?_, fun hx => (nomatch hx)⟩
        rw [(ResolveError.notRegistered.injEq _ _).mp hx] at hreg
        exact hreg
      · rename_i reg hreg
        split at h
        · exact resolveSingleton_err ih h
        · split at h
          · rename_i hsc
            rw [Except.error.injEq] at h
            rw [← h]
            exact ⟨fun x hx => (nomatch hx), fun _ => hsc⟩
          · exact resolveScoped_err ih h
        · exact createInstance_err ih h

/-! ### Targeted facts about single resolution steps -/

theorem getInstance_singleton_hit {c : List (Token × Registration)} {t : Token}
    {reg : Registration} {s : ResState} {v : Value} (fuel : Nat)
    (hreg : mapGet c t = some reg) (hls : reg.lifestyle = LifeStyle.Singleton)
    (hv : mapGet s.singletons t = some v) :
    getInstance c (fuel + 1) t s = .ok (v, s) := by
  simp [getInstance, hreg, hls, resolveSingleton, hv]

theorem getInstance_singleton_caches {c : List (Token × Registration)} {fuel : Nat}
    {t : Token} {reg : Registration} {s : ResState} {v : Value} {s' : ResState}
    (hreg : mapGet c t = some reg) (hls : reg.lifestyle = LifeStyle.Singleton)
    (h : getInstance c fuel t s = .ok (v, s')) :
    mapGet s'.singletons t = some v := by
  obtain ⟨k, rfl⟩ := getInstance_fuel_pos h
  simp only [getInstance, hreg, hls] at h
  simp only [resolveSingleton] at h
  split at h
  · rename_i w hw
    rw [Except.ok.injEq, Prod.mk.injEq] at h
    rw [← h.1, ← h.2]
    exact hw
  · split at h
    · simp at h
    · rename_i v₁ s₁ hcr
      rw [Except.ok.injEq, Prod.mk.injEq] at h
      rw [← h.1, ← h.2]
      exact mapGet_set_self _ _ _

theorem getInstance_scoped_hit {c : List (Token × Registration)} {t : Token}
    {reg : Registration} {s : ResState} {m : List (Token × Value)} {v : Value} (fuel : Nat)
    (hreg : mapGet c t = some reg) (hls : reg.lifestyle = LifeStyle.Scoped)
    (hm : s.scopeCache = some m) (hv : mapGet m t = some v) :
    getInstance c (fuel + 1) t s = .ok (v, s) := by
  simp [getInstance, hreg, hls, hm, resolveScoped, hv]

theorem getInstance_scoped_build {c : List (Token × Registration)} {fuel : Nat}
    {t : Token} {reg : Registration} {s : ResState} {m : List (Token × Value)}
    {v : Value} {s' : ResState}
    (hreg : mapGet c t = some reg) (hls : reg.lifestyle = LifeStyle.Scoped)
    (hm : s.scopeCache = some m) (hmiss : mapGet m t = none)
    (h : getInstance c (fuel + 1) t s = .ok (v, s')) :
    ∃ s₁ cache', createInstance (getInstance c fuel) reg s = .ok (v, s₁) ∧
      s₁.scopeCache = some cache' ∧
      s' = { s₁ with scopeCache := some (mapSet cache' t v) } := by
  simp only [getInstance, hreg, hls, hm] at h
  simp only [resolveScoped, hm, hmiss] at h
  split at h
  · simp at h
  · rename_i v₁ s₁ hcr
    split at h
    · simp at h
    · rename_i cache' hsc₁
      rw [Except.ok.injEq, Prod.mk.injEq] at h
      obtain ⟨rfl, rfl⟩ := h
      exact ⟨s₁, cache', hcr, hsc₁, rfl⟩

theorem getInstance_perRequest {c : List (Token × Registration)} {t : Token}
    {reg : Registration} (fuel : Nat) (s : ResState)
    (hreg : mapGet c t = some reg) (hls : reg.lifestyle = LifeStyle.PerRequest) :
    getInstance c (fuel + 1) t s = createInstance (getInstance c fuel) reg s := by
  simp [getInstance, hreg, hls]

theorem createInstance_fresh {c : List (Token × Registration)} {resolve : Resolver}
    (hres : ResolverInv c resolve) {reg : Registration} {s : ResState} {v : Value}
    {s' : ResState} (h : createInstance resolve reg s = .ok (v, s')) :
    s.nextId ≤ v.id ∧ v.id < s'.nextId := by
  simp only [createInstance] at h
  split at h
  · rw [Except.ok.injEq, Prod.mk.injEq] at h
    rw [← h.1, ← h.2]
    exact ⟨le_refl _, Nat.lt_succ_self _⟩
  · split at h
    · simp at h
    · rename_i vs s₁ hdeps
      rw [Except.ok.injEq, Prod.mk.injEq] at h
      rw [← h.1, ← h.2]
      exact ⟨(resolveDeps_ok hres reg.dependencies s vs s₁ hdeps).mono, Nat.lt_succ_self _⟩

theorem createInstance_ctor {resolve : Resolver} {reg : Registration} {s : ResState}
    {v : Value} {s' : ResState} (hfac : reg.factory = none)
    (h : createInstance resolve reg s = .ok (v, s')) :
    ∃ ws s₁, resolveDeps resolve reg.dependencies s = .ok (ws, s₁) ∧
      v = Value.mk (reg.implementation.getD 0) s₁.nextId
            (ws.map Value.toArg ++ reg.constructorParams) ∧
      s' = { s₁ with nextId := s₁.nextId + 1 } := by
  simp only [createInstance, hfac] at h
  split at h
  · simp at h
  · rename_i ws s₁ hdeps
    rw [Except.ok.injEq, Prod.mk.injEq] at h
    exact ⟨ws, s₁, hdeps, h.1.symm, h.2.symm⟩

theorem resolveDeps_singleton_cached {c : List (Token × Registration)} {fuel : Nat} :
    ∀ {ds : List Token} {s : ResState} {vs : List Value} {s' : ResState},
      (∀ d ∈ ds, ∃ rd, mapGet c d = some rd ∧ rd.lifestyle = LifeStyle.Singleton) →
      resolveDeps (getInstance c fuel) ds s = .ok (vs, s') →
      List.Forall₂ (fun d w => mapGet s'.singletons d = some w) ds vs := by
  intro ds
  induction ds with
  | nil =>
    intro s vs s' _ h
    simp only [resolveDeps, Except.ok.injEq, Prod.mk.injEq] at h
    rw [← h.1]
    exact List.Forall₂.nil
  | cons d rest ih =>
    intro s vs s' hds h
    simp only [resolveDeps] at h
    split at h
    · simp at h
    · rename_i v s₁ h1
      split at h
      · simp at h
      · rename_i vs₂ s₂ h2
        rw [Except.ok.injEq, Prod.mk.injEq] at h
        obtain ⟨rfl, rfl⟩ := h
        obtain ⟨rd, hrd, hrdls⟩ := hds d (List.mem_cons_self d rest)
        have hc : mapGet s₁.singletons d = some v :=
          getInstance_singleton_caches hrd hrdls h1
        have hpres := (resolveDeps_ok (getInstance_inv c fuel) rest s₁ vs₂ s₂ h2).sglPres d v hc
        exact List.Forall₂.cons hpres
          (ih (fun d' hd' => hds d' (List.mem_cons_of_mem d hd')) h2)

theorem resolveDeps_all_hits {c : List (Token × Registration)} {fuel : Nat} :
    ∀ {ds : List Token} {ws : List Value} {s : ResState} {vs : List Value} {s' : ResState},
      (∀ d ∈ ds, ∃ rd, mapGet c d = some rd ∧ rd.lifestyle = LifeStyle.Singleton) →
      List.Forall₂ (fun d w => mapGet s.singletons d = some w) ds ws →
      resolveDeps (getInstance c fuel) ds s = .ok (vs, s') →
      vs = ws ∧ s' = s := by
  intro ds
  induction ds with
  | nil =>
    intro ws s vs s' _ hall h
    cases hall
    simp only [resolveDeps, Except.ok.injEq, Prod.mk.injEq] at h
    exact ⟨h.1.symm, h.2.symm⟩
  | cons d rest ih =>
    intro ws s vs s' hds hall h
    cases hall with
    | cons hw hrest =>
      rename_i w ws'
      simp only [resolveDeps] at h
      split at h
      · simp at h
      · rename_i v s₁ h1
        obtain ⟨k, rfl⟩ := getInstance_fuel_pos h1
        obtain ⟨rd, hrd, hrdls⟩ := hds d (List.mem_cons_self d rest)
        have hit := getInstance_singleton_hit k hrd hrdls hw
        rw [h1, Except.ok.injEq, Prod.mk.injEq] at hit
        obtain ⟨rfl, rfl⟩ := hit
        split at h
        · simp at h
        · rename_i vs₂ s₂ h2
          obtain ⟨rfl, rfl⟩ := ih (fun d' hd' => hds d' (List.mem_cons_of_mem d hd')) hrest h2
          rw [Except.ok.injEq, Prod.mk.injEq] at h
          exact ⟨h.1.symm, h.2.symm⟩

/-! ### Resolution depends on the registry only through lookup -/

theorem mapGet_set_set {α : Type} (m : List (Token × α)) (k k' : Token) (v₁ v₂ : α) :
    mapGet (mapSet (mapSet m k v₁) k v₂) k' = mapGet (mapSet m k v₂) k' := by
  by_cases h : k = k'
  · rw [← h, mapGet_set_self, mapGet_set_self]
  · rw [mapGet_set_ne _ _ _ _ h, mapGet_set_ne _ _ _ _ h, mapGet_set_ne _ _ _ _ h]

theorem resolveDeps_congr {r₁ r₂ : Resolver} (hr : ∀ t s, r₁ t s = r₂ t s) :
    ∀ (ds : List Token) (s : ResState), resolveDeps r₁ ds s = resolveDeps r₂ ds s := by
  intro ds
  induction ds with
  | nil => intro s; rfl
  | cons d rest ih =>
    intro s
    simp only [resolveDeps, hr d s]
    cases h2 : r₂ d s with
    | error e => rfl
    | ok p =>
      obtain ⟨v, s'⟩ := p
      simp only [ih s']

theorem createInstance_congr {r₁ r₂ : Resolver} (hr : ∀ t s, r₁ t s = r₂ t s)
    (reg : Registration) (s : ResState) :
    createInstance r₁ reg s = createInstance r₂ reg s := by
  simp only [createInstance]
  cases reg.factory with
  | some f => rfl
  | none => rw [resolveDeps_congr hr]

theorem resolveSingleton_congr {r₁ r₂ : Resolver} (hr : ∀ t s, r₁ t s = r₂ t s)
    (t : Token) (reg : Registration) (s : ResState) :
    resolveSingleton r₁ t reg s = resolveSingleton r₂ t reg s := by
  simp only [resolveSingleton]
  rw [createInstance_congr hr]

theorem resolveScoped_congr {r₁ r₂ : Resolver} (hr : ∀ t s, r₁ t s = r₂ t s)
    (t : Token) (reg : Registration) (s : ResState) :
    resolveScoped r₁ t reg s = resolveScoped r₂ t reg s := by
  simp only [resolveScoped]
  rw [createInstance_congr hr]

/-- Resolution sees the registry only through `mapGet`: two containers that
answer every lookup identically resolve identically. -/
theorem getInstance_ext {c₁ c₂ : List (Token × Registration)}
    (hc : ∀ k, mapGet c₁ k = mapGet c₂ k) :
    ∀ (fuel : Nat) (t : Token) (s : ResState),
      getInstance c₁ fuel t s = getInstance c₂ fuel t s := by
  intro fuel
  induction fuel with
  | zero => intro t s; rfl
  | succ fuel ih =>
    intro t s
    cases hreg : mapGet c₂ t with
    | none => simp [getInstance, hc t, hreg]
    | some reg =>
      cases hls : reg.lifestyle with
      | Singleton =>
        simp only [getInstance, hc t, hreg, hls]
        exact resolveSingleton_congr ih t reg s
      | Scoped =>
        cases hsc : s.scopeCache with
        | none => simp [getInstance, hc t, hreg, hls, hsc]
        | some m =>
          simp only [getInstance, hc t, hreg, hls, hsc]
          exact resolveScoped_congr ih t reg s
      | PerRequest =>
        simp only [getInstance, hc t, hreg, hls]
        exact createInstance_congr ih reg s

/-! ### The claims -/

/-- C1: for a token whose stored registration has `Singleton` lifetime,
every successful resolution against one container returns the identical
instance, directly or through any scope context and with arbitrary other
successful resolutions in between: the first successful resolution caches
the built instance in the singleton cache, any later successful resolution
(of any token) preserves that entry, and every subsequent resolution of
the token — with any scope context — returns exactly the cached instance
and leaves the state completely unchanged (so the instance is built
exactly once, on the first resolution, and cached for the container's
lifetime). -/
theorem claim_C1_singleton_identity {c : List (Token × Registration)} {t : Token}
    {reg : Registration} {f₁ f₂ : Nat} {s₀ s₁ : ResState} {v₁ : Value}
    {t' : Token} {v' : Value} {s' : ResState}
    (hreg : mapGet c t = some reg) (hls : reg.lifestyle = LifeStyle.Singleton)
    (h₁ : getInstance c f₁ t s₀ = .ok (v₁, s₁))
    (h₂ : getInstance c f₂ t' s₁ = .ok (v', s')) :
    mapGet s₁.singletons t = some v₁ ∧
    mapGet s'.singletons t = some v₁ ∧
    ∀ (g : Nat) (sc : Option (List (Token × Value))),
      getInstance c (g + 1) t { s' with scopeCache := sc } =
        .ok (v₁, { s' with scopeCache := sc }) := by
  have hc₁ : mapGet s₁.singletons t = some v₁ := getInstance_singleton_caches hreg hls h₁
  have hc' : mapGet s'.singletons t = some v₁ :=
    ((getInstance_inv c f₂).1 t' s₁ v' s' h₂).sglPres t v₁ hc₁
  exact ⟨hc₁, hc', fun g sc => getInstance_singleton_hit g hreg hls hc'⟩

theorem claim_C1_singleton_identity_witness :
    mapGet [(0, Registration.mk (some 10) LifeStyle.Singleton [] [] none)] 0 =
      some (Registration.mk (some 10) LifeStyle.Singleton [] [] none) ∧
    getInstance [(0, Registration.mk (some 10) LifeStyle.Singleton [] [] none)] 1 0
        ⟨[], none, 0⟩ =
      .ok (Value.mk 10 0 [], ⟨[(0, Value.mk 10 0 [])], none, 1⟩) ∧
    getInstance [(0, Registration.mk (some 10) LifeStyle.Singleton [] [] none)] 1 0
        ⟨[(0, Value.mk 10 0 [])], none, 1⟩ =
      .ok (Value.mk 10 0 [], ⟨[(0, Value.mk 10 0 [])], none, 1⟩) ∧
    (mapGet (⟨[(0, Value.mk 10 0 [])], none, 1⟩ : ResState).singletons 0 = some (Value.mk 10 0 []) ∧
     mapGet (⟨[(0, Value.mk 10 0 [])], none, 1⟩ : ResState).singletons 0 = some (Value.mk 10 0 []) ∧
     ∀ (g : Nat) (sc : Option (List (Token × Value))),
       getInstance [(0, Registration.mk (some 10) LifeStyle.Singleton [] [] none)] (g + 1) 0
           { (⟨[(0, Value.mk 10 0 [])], none, 1⟩ : ResState) with scopeCache := sc } =
         .ok (Value.mk 10 0 [],
           { (⟨[(0, Value.mk 10 0 [])], none, 1⟩ : ResState) with scopeCache := sc })) := by
  have h₁ : getInstance [(0, Registration.mk (some 10) LifeStyle.Singleton [] [] none)] 1 0
      ⟨[], none, 0⟩ =
      .ok (Value.mk 10 0 [], ⟨[(0, Value.mk 10 0 [])], none, 1⟩) := rfl
  have h₂ : getInstance [(0, Registration.mk (some 10) LifeStyle.Singleton [] [] none)] 1 0
      ⟨[(0, Value.mk 10 0 [])], none, 1⟩ =
      .ok (Value.mk 10 0 [], ⟨[(0, Value.mk 10 0 [])], none, 1⟩) := rfl
  exact ⟨rfl, h₁, h₂, claim_C1_singleton_identity rfl rfl h₁ h₂⟩

/-- C2: for a token whose stored registration has `Scoped` lifetime, a
second resolution through the same scope handle returns the identical
instance (and leaves the state unchanged), while a resolution through a
second, distinct scope handle — each handle freshly created by
`createScope` — returns a distinct instance. -/
theorem claim_C2_scoped_per_scope {c : List (Token × Registration)} {t : Token}
    {reg : Registration} {sg₀ : List (Token × Value)} {n₀ : Nat}
    {f₁ f₂ f₃ : Nat} {v₁ v₂ v₃ : Value} {s₁ s₂ s₃ : ResState}
    (hreg : mapGet c t = some reg) (hls : reg.lifestyle = LifeStyle.Scoped)
    (h₁ : getInstance c f₁ t ⟨sg₀, some Injector.createScope, n₀⟩ = .ok (v₁, s₁))
    (h₂ : getInstance c f₂ t s₁ = .ok (v₂, s₂))
    (h₃ : getInstance c f₃ t ⟨s₁.singletons, some Injector.createScope, s₁.nextId⟩ =
      .ok (v₃, s₃)) :
    v₂ = v₁ ∧ s₂ = s₁ ∧ v₃ ≠ v₁ := by
  obtain ⟨k₁, rfl⟩ := getInstance_fuel_pos h₁
  obtain ⟨k₂, rfl⟩ := getInstance_fuel_pos h₂
  obtain ⟨k₃, rfl⟩ := getInstance_fuel_pos h₃
  have hm₁ : (⟨sg₀, some Injector.createScope, n₀⟩ : ResState).scopeCache =
      some Injector.createScope := rfl
  have hmiss : mapGet Injector.createScope t = none := rfl
  obtain ⟨sB, cache', hcr, hsc₁, rfl⟩ := getInstance_scoped_build hreg hls hm₁ hmiss h₁
  have hfresh₁ := createInstance_fresh (getInstance_inv c k₁) hcr
  have hsc₂ : ({ sB with scopeCache := some (mapSet cache' t v₁) } : ResState).scopeCache =
      some (mapSet cache' t v₁) := rfl
  have hhit := getInstance_scoped_hit k₂ hreg hls hsc₂ (mapGet_set_self cache' t v₁)
  rw [h₂, Except.ok.injEq, Prod.mk.injEq] at hhit
  have hm₃ : (⟨({ sB with scopeCache := some (mapSet cache' t v₁) } : ResState).singletons,
      some Injector.createScope,
      ({ sB with scopeCache := some (mapSet cache' t v₁) } : ResState).nextId⟩ :
        ResState).scopeCache = some Injector.createScope := rfl
  obtain ⟨sB₃, cache₃, hcr₃, hsc₃, rfl⟩ := getInstance_scoped_build hreg hls hm₃ hmiss h₃
  have hfresh₃ := createInstance_fresh (getInstance_inv c k₃) hcr₃
  have hlt : v₁.id < v₃.id := by
    have h1 : v₁.id < sB.nextId := hfresh₁.2
    have h2 : sB.nextId ≤ v₃.id := hfresh₃.1
    omega
  refine ⟨hhit.1, hhit.2, fun he => ?_⟩
  rw [he] at hlt
  exact Nat.lt_irrefl _ hlt

theorem claim_C2_scoped_per_scope_witness :
    mapGet [(0, Registration.mk (some 20) LifeStyle.Scoped [] [] none)] 0 =
      some (Registration.mk (some 20) LifeStyle.Scoped [] [] none) ∧
    getInstance [(0, Registration.mk (some 20) LifeStyle.Scoped [] [] none)] 1 0
        ⟨[], some Injector.createScope, 0⟩ =
      .ok (Value.mk 20 0 [], ⟨[], some [(0, Value.mk 20 0 [])], 1⟩) ∧
    getInstance [(0, Registration.mk (some 20) LifeStyle.Scoped [] [] none)] 1 0
        ⟨[], some [(0, Value.mk 20 0 [])], 1⟩ =
      .ok (Value.mk 20 0 [], ⟨[], some [(0, Value.mk 20 0 [])], 1⟩) ∧
    getInstance [(0, Registration.mk (some 20) LifeStyle.Scoped [] [] none)] 1 0
        ⟨[], some Injector.createScope, 1⟩ =
      .ok (Value.mk 20 1 [], ⟨[], some [(0, Value.mk 20 1 [])], 2⟩) ∧
    (Value.mk 20 0 [] = Value.mk 20 0 [] ∧
     (⟨[], some [(0, Value.mk 20 0 [])], 1⟩ : ResState) =
       ⟨[], some [(0, Value.mk 20 0 [])], 1⟩ ∧
     Value.mk 20 1 [] ≠ Value.mk 20 0 []) := by
  have h₁ : getInstance [(0, Registration.mk (some 20) LifeStyle.Scoped [] [] none)] 1 0
      ⟨[], some Injector.createScope, 0⟩ =
      .ok (Value.mk 20 0 [], ⟨[], some [(0, Value.mk 20 0 [])], 1⟩) := rfl
  have h₂ : getInstance [(0, Registration.mk (some 20) LifeStyle.Scoped [] [] none)] 1 0
      ⟨[], some [(0, Value.mk 20 0 [])], 1⟩ =
      .ok (Value.mk 20 0 [], ⟨[], some [(0, Value.mk 20 0 [])], 1⟩) := rfl
  have h₃ : getInstance [(0, Registration.mk (some 20) LifeStyle.Scoped [] [] none)] 1 0
      ⟨[], some Injector.createScope, 1⟩ =
      .ok (Value.mk 20 1 [], ⟨[], some [(0, Value.mk 20 1 [])], 2⟩) := rfl
  have hreg : mapGet [(0, Registration.mk (some 20) LifeStyle.Scoped [] [] none)] 0 =
      some (Registration.mk (some 20) LifeStyle.Scoped [] [] none) := rfl
  exact ⟨hreg, h₁, h₂, h₃, claim_C2_scoped_per_scope hreg rfl h₁ h₂ h₃⟩

/-- C5: for a token whose stored registration has `PerRequest` lifetime,
two consecutive resolutions (with any scope contexts) return distinct
instances — distinct by allocation identity — and neither resolution adds
an entry for the token to the singleton cache or to a supplied scope
cache: a fresh instance is built on every resolution and never cached. -/
theorem claim_C5_perRequest_distinct {c : List (Token × Registration)} {t : Token}
    {reg : Registration} {f₁ f₂ : Nat} {s₀ s₁ s₂ : ResState} {v₁ v₂ : Value}
    {sc : Option (List (Token × Value))}
    (hreg : mapGet c t = some reg) (hls : reg.lifestyle = LifeStyle.PerRequest)
    (h₁ : getInstance c f₁ t s₀ = .ok (v₁, s₁))
    (h₂ : getInstance c f₂ t { s₁ with scopeCache := sc } = .ok (v₂, s₂)) :
    v₂ ≠ v₁ ∧
    mapGet s₁.singletons t = mapGet s₀.singletons t ∧
    (∀ m₀ m₁, s₀.scopeCache = some m₀ → s₁.scopeCache = some m₁ →
      mapGet m₁ t = mapGet m₀ t) := by
  obtain ⟨k₁, rfl⟩ := getInstance_fuel_pos h₁
  obtain ⟨k₂, rfl⟩ := getInstance_fuel_pos h₂
  have hstep := (getInstance_inv c (k₁ + 1)).1 t s₀ v₁ s₁ h₁
  rw [getInstance_perRequest k₁ s₀ hreg hls] at h₁
  rw [getInstance_perRequest k₂ _ hreg hls] at h₂
  have hf₁ := createInstance_fresh (getInstance_inv c k₁) h₁
  have hf₂ := createInstance_fresh (getInstance_inv c k₂) h₂
  have hf₂' : s₁.nextId ≤ v₂.id := hf₂.1
  refine ⟨fun he => ?_, ?_, ?_⟩
  · have hid : v₂.id = v₁.id := by rw [he]
    have h1 : v₁.id < s₁.nextId := hf₁.2
    omega
  · by_contra hne
    obtain ⟨rk, hrk, hrkls⟩ := hstep.sglFrame t hne
    rw [hreg, Option.some_inj] at hrk
    rw [← hrk, hls] at hrkls
    cases hrkls
  · intro m₀ m₁ hm₀ hm₁
    by_contra hne
    obtain ⟨rk, hrk, hrkls⟩ := hstep.scFrame m₀ m₁ t hm₀ hm₁ hne
    rw [hreg, Option.some_inj] at hrk
    rw [← hrk, hls] at hrkls
    cases hrkls

theorem claim_C5_perRequest_distinct_witness :
    mapGet [(0, Registration.mk (some 30) LifeStyle.PerRequest [] [] none)] 0 =
      some (Registration.mk (some 30) LifeStyle.PerRequest [] [] none) ∧
    getInstance [(0, Registration.mk (some 30) LifeStyle.PerRequest [] [] none)] 1 0
        ⟨[], none, 0⟩ = .ok (Value.mk 30 0 [], ⟨[], none, 1⟩) ∧
    getInstance [(0, Registration.mk (some 30) LifeStyle.PerRequest [] [] none)] 1 0
        { (⟨[], none, 1⟩ : ResState) with scopeCache := none } =
      .ok (Value.mk 30 1 [], ⟨[], none, 2⟩) ∧
    Value.mk 30 1 [] ≠ Value.mk 30 0 [] := by
  have h₁ : getInstance [(0, Registration.mk (some 30) LifeStyle.PerRequest [] [] none)] 1 0
      ⟨[], none, 0⟩ = .ok (Value.mk 30 0 [], ⟨[], none, 1⟩) := rfl
  have h₂ : getInstance [(0, Registration.mk (some 30) LifeStyle.PerRequest [] [] none)] 1 0
      { (⟨[], none, 1⟩ : ResState) with scopeCache := none } =
      .ok (Value.mk 30 1 [], ⟨[], none, 2⟩) := rfl
  have hreg : mapGet [(0, Registration.mk (some 30) LifeStyle.PerRequest [] [] none)] 0 =
      some (Registration.mk (some 30) LifeStyle.PerRequest [] [] none) := rfl
  exact ⟨hreg, h₁, h₂, (claim_C5_perRequest_distinct hreg rfl h₁ h₂).1⟩

/-- C6: a constructor-style registration with dependency tokens `[a, b]`
and literal parameters `[p]` invokes its builder with exactly the argument
list `(resolved a, resolved b, p)`: the dependencies resolved in
declaration order through the given resolver, followed by the literal
parameter. -/
theorem claim_C6_builder_arg_order {resolve : Resolver} {cls a b : Nat} {ls : LifeStyle}
    {p : Arg} {s : ResState} {v : Value} {s' : ResState}
    (h : createInstance resolve (Registration.mk (some cls) ls [a, b] [p] none) s =
      .ok (v, s')) :
    ∃ va sA vb sB, resolve a s = .ok (va, sA) ∧ resolve b sA = .ok (vb, sB) ∧
      v = Value.mk cls sB.nextId [va.toArg, vb.toArg, p] ∧
      s' = { sB with nextId := sB.nextId + 1 } := by
  simp only [createInstance, resolveDeps] at h
  split at h
  · simp at h
  · rename_i vs sB h1
    split at h1
    · simp at h1
    · rename_i va sA h2
      split at h1
      · simp at h1
      · rename_i w sB₂ h3
        split at h3
        · simp at h3
        · rename_i vb sB₃ h4
          rw [Except.ok.injEq, Prod.mk.injEq] at h3 h1 h
          obtain ⟨rfl, rfl⟩ := h3
          obtain ⟨rfl, rfl⟩ := h1
          refine ⟨va, sA, vb, sB₃, h2, h4, ?_, ?_⟩
          · rw [← h.1]; rfl
          · rw [← h.2]

theorem claim_C6_builder_arg_order_witness :
    createInstance
        (getInstance [(4, Registration.mk (some 40) LifeStyle.PerRequest [] [] none),
                      (5, Registration.mk (some 50) LifeStyle.PerRequest [] [] none)] 1)
        (Registration.mk (some 60) LifeStyle.PerRequest [4, 5] [Arg.lit 9] none)
        ⟨[], none, 0⟩ =
      .ok (Value.mk 60 2 [Arg.ref 0, Arg.ref 1, Arg.lit 9], ⟨[], none, 3⟩) ∧
    ∃ va sA vb sB,
      getInstance [(4, Registration.mk (some 40) LifeStyle.PerRequest [] [] none),
                   (5, Registration.mk (some 50) LifeStyle.PerRequest [] [] none)] 1 4
          ⟨[], none, 0⟩ = .ok (va, sA) ∧
      getInstance [(4, Registration.mk (some 40) LifeStyle.PerRequest [] [] none),
                   (5, Registration.mk (some 50) LifeStyle.PerRequest [] [] none)] 1 5
          sA = .ok (vb, sB) ∧
      Value.mk 60 2 [Arg.ref 0, Arg.ref 1, Arg.lit 9] =
        Value.mk 60 sB.nextId [va.toArg, vb.toArg, Arg.lit 9] ∧
      (⟨[], none, 3⟩ : ResState) = { sB with nextId := sB.nextId + 1 } := by
  have h : createInstance
      (getInstance [(4, Registration.mk (some 40) LifeStyle.PerRequest [] [] none),
                    (5, Registration.mk (some 50) LifeStyle.PerRequest [] [] none)] 1)
      (Registration.mk (some 60) LifeStyle.PerRequest [4, 5] [Arg.lit 9] none)
      ⟨[], none, 0⟩ =
      .ok (Value.mk 60 2 [Arg.ref 0, Arg.ref 1, Arg.lit 9], ⟨[], none, 3⟩) := rfl
  exact ⟨h, claim_C6_builder_arg_order h⟩

/-- C4 (amended): the error taxonomy of resolution.  An unregistered
requested token always fails with `notRegistered` naming it, and an error
`notRegistered x` always means `x` has no stored registration (`x` may be
the requested token or a transitive constructor dependency); a
Scoped-registered requested token resolved with no scope context always
fails with `noActiveScope`, and a `noActiveScope` error always means the
resolution ran with no scope context (the Scoped token hit may be the
requested token or a transitive dependency).  Failures return no
instance. -/
theorem claim_C4_error_taxonomy (c : List (Token × Registration)) :
    (∀ (t : Token) (fuel : Nat) (s : ResState), mapGet c t = none →
       getInstance c (fuel + 1) t s = .error (.notRegistered t)) ∧
    (∀ (t : Token) (fuel : Nat) (s : ResState) (x : Token),
       getInstance c fuel t s = .error (.notRegistered x) → mapGet c x = none) ∧
    (∀ (t : Token) (reg : Registration) (fuel : Nat) (s : ResState),
       mapGet c t = some reg → reg.lifestyle = LifeStyle.Scoped →
       s.scopeCache = none → getInstance c (fuel + 1) t s = .error .noActiveScope) ∧
    (∀ (t : Token) (fuel : Nat) (s : ResState),
       getInstance c fuel t s = .error .noActiveScope → s.scopeCache = none) := by
  refine ⟨fun t fuel s h => by simp [getInstance, h], fun t fuel s x h => ?_,
    fun t reg fuel s hreg hls hsc => by simp [getInstance, hreg, hls, hsc],
    fun t fuel s h => ?_⟩
  · exact ((getInstance_inv c fuel).2 t s _ h).nr x rfl
  · exact ((getInstance_inv c fuel).2 t s _ h).nas rfl

theorem claim_C4_error_taxonomy_witness :
    (mapGet ([] : List (Token × Registration)) 0 = none ∧
     getInstance ([] : List (Token × Registration)) 1 0 ⟨[], none, 0⟩ =
       .error (.notRegistered 0)) ∧
    (mapGet [(0, Registration.mk (some 10) LifeStyle.Scoped [] [] none)] 0 =
       some (Registration.mk (some 10) LifeStyle.Scoped [] [] none) ∧
     getInstance [(0, Registration.mk (some 10) LifeStyle.Scoped [] [] none)] 1 0
       ⟨[], none, 0⟩ = .error .noActiveScope) := by
  refine ⟨⟨rfl, ?_⟩, rfl, ?_⟩
  · exact (claim_C4_error_taxonomy ([] : List (Token × Registration))).1 0 0 ⟨[], none, 0⟩ rfl
  · exact (claim_C4_error_taxonomy
      [(0, Registration.mk (some 10) LifeStyle.Scoped [] [] none)]).2.2.1 0
      (Registration.mk (some 10) LifeStyle.Scoped [] [] none) 0 ⟨[], none, 0⟩ rfl rfl rfl

/-- C4 counterexample: resolution can fail with `notRegistered` although
the requested token has a stored registration â the unregistered token is
a transitive constructor dependency.  Token 0 is registered (PerRequest,
depending on token 1, which is unregistered), yet resolving token 0 fails
with `notRegistered 1`, refuting the claimed equivalence between "fails
with NotRegistered" and "the requested token has no stored
Registration". -/
theorem claim_C4_counterexample :
    mapGet [(0, Registration.mk (some 10) LifeStyle.PerRequest [1] [] none)] 0 =
      some (Registration.mk (some 10) LifeStyle.PerRequest [1] [] none) ∧
    getInstance [(0, Registration.mk (some 10) LifeStyle.PerRequest [1] [] none)] 5 0
      ⟨[], none, 0⟩ = .error (.notRegistered 1) :=
  ⟨rfl, rfl⟩

/-- C7 (amended): resolving a `Singleton` token whose instance is already
cached ignores the scope context entirely: for every two scope contexts
the resolution returns the identical cached instance and leaves the state
completely unchanged.  (On the uncached first resolution the scope
context is forwarded to dependency building, so outcomes can differ
there â see the counterexample.) -/
theorem claim_C7_singleton_scope_independent {c : List (Token × Registration)} {t : Token}
    {reg : Registration} {sg : List (Token × Value)} {v : Value} (n fuel : Nat)
    (hreg : mapGet c t = some reg) (hls : reg.lifestyle = LifeStyle.Singleton)
    (hv : mapGet sg t = some v) :
    ∀ sc₁ sc₂ : Option (List (Token × Value)),
      getInstance c (fuel + 1) t ⟨sg, sc₁, n⟩ = .ok (v, ⟨sg, sc₁, n⟩) ∧
      getInstance c (fuel + 1) t ⟨sg, sc₂, n⟩ = .ok (v, ⟨sg, sc₂, n⟩) :=
  fun _ _ => ⟨getInstance_singleton_hit fuel hreg hls hv,
              getInstance_singleton_hit fuel hreg hls hv⟩

theorem claim_C7_singleton_scope_independent_witness :
    mapGet [(0, Registration.mk (some 10) LifeStyle.Singleton [] [] none)] 0 =
      some (Registration.mk (some 10) LifeStyle.Singleton [] [] none) ∧
    mapGet [(0, Value.mk 10 5 [])] 0 = some (Value.mk 10 5 []) ∧
    (getInstance [(0, Registration.mk (some 10) LifeStyle.Singleton [] [] none)] 1 0
       ⟨[(0, Value.mk 10 5 [])], none, 6⟩ =
       .ok (Value.mk 10 5 [], ⟨[(0, Value.mk 10 5 [])], none, 6⟩) ∧
     getInstance [(0, Registration.mk (some 10) LifeStyle.Singleton [] [] none)] 1 0
       ⟨[(0, Value.mk 10 5 [])], some [], 6⟩ =
       .ok (Value.mk 10 5 [], ⟨[(0, Value.mk 10 5 [])], some [], 6⟩)) := by
  have hreg : mapGet [(0, Registration.mk (some 10) LifeStyle.Singleton [] [] none)] 0 =
      some (Registration.mk (some 10) LifeStyle.Singleton [] [] none) := rfl
  have hv : mapGet [(0, Value.mk 10 5 [])] 0 = some (Value.mk 10 5 []) := rfl
  exact ⟨hreg, hv,
    claim_C7_singleton_scope_independent 6 0 hreg rfl hv none (some [])⟩

/-- C7 counterexample: singleton resolution does not in general ignore the
scope context.  Token 0 is Singleton with a Scoped dependency (token 1):
its first resolution succeeds inside a scope but fails with
`noActiveScope` without one, so the outcome of resolving a
Singleton-lifetime token is not identical across scope contexts. -/
theorem claim_C7_counterexample :
    mapGet [(0, Registration.mk (some 10) LifeStyle.Singleton [1] [] none),
            (1, Registration.mk (some 11) LifeStyle.Scoped [] [] none)] 0 =
      some (Registration.mk (some 10) LifeStyle.Singleton [1] [] none) ∧
    getInstance [(0, Registration.mk (some 10) LifeStyle.Singleton [1] [] none),
                 (1, Registration.mk (some 11) LifeStyle.Scoped [] [] none)] 5 0
      ⟨[], some [], 0⟩ =
      .ok (Value.mk 10 1 [Arg.ref 0],
           ⟨[(0, Value.mk 10 1 [Arg.ref 0])], some [(1, Value.mk 11 0 [])], 2⟩) ∧
    getInstance [(0, Registration.mk (some 10) LifeStyle.Singleton [1] [] none),
                 (1, Registration.mk (some 11) LifeStyle.Scoped [] [] none)] 5 0
      ⟨[], none, 0⟩ = .error .noActiveScope :=
  ⟨rfl, rfl, rfl⟩

/-- One registration call of the public surface: constructor-style
(`register`) or factory-style (`registerFactory`). -/
inductive RegOp where
  | ctor : Nat → LifeStyle → List Token → List Arg → RegOp
  | fact : Nat → LifeStyle → RegOp

/-- Perform the registration call on a container. -/
def RegOp.apply : RegOp → Injector → Token → Injector
  | .ctor cls ls ds ps, inj, t => inj.register t cls ls ds ps
  | .fact f ls, inj, t => inj.registerFactory t f ls

/-- C8: registering a token twice â with `register` or `registerFactory`,
in any combination â and then resolving it behaves exactly as if only the
second registration had happened: the double registration and the
single second registration give the same resolution outcome on the token
(for every fuel and state), and the same singleton cache and allocation
counter. -/
theorem claim_C8_register_overwrite (inj : Injector) (t : Token) (op₁ op₂ : RegOp)
    (fuel : Nat) (s : ResState) :
    getInstance ((op₂.apply (op₁.apply inj t) t).container) fuel t s =
      getInstance ((op₂.apply inj t).container) fuel t s ∧
    (op₂.apply (op₁.apply inj t) t).singletons = (op₂.apply inj t).singletons ∧
    (op₂.apply (op₁.apply inj t) t).nextId = (op₂.apply inj t).nextId := by
  refine ⟨?_, ?_, ?_⟩
  · apply getInstance_ext
    intro k
    cases op₁ <;> cases op₂ <;> exact mapGet_set_set inj.container t k _ _
  · cases op₁ <;> cases op₂ <;> rfl
  · cases op₁ <;> cases op₂ <;> rfl

/-- C9: a singleton cache entry, once present, is retained for the
container's lifetime: registration calls (`register`/`registerFactory`,
including re-registration of the same token) never touch the singleton
cache, every successful resolution preserves the entry unchanged, and as
long as the token's current registration (in any container state,
including after re-registration) has Singleton lifetime, resolving it
returns exactly the originally cached instance with the state
unchanged. -/
theorem claim_C9_singleton_retention {c : List (Token × Registration)} {t : Token}
    {w : Value} {fuel : Nat} {t' : Token} {s : ResState} {v' : Value} {s' : ResState}
    (inj : Injector) (tok : Token) (cls fac : Nat) (ls : LifeStyle)
    (ds : List Token) (ps : List Arg)
    (hw : mapGet s.singletons t = some w)
    (h : getInstance c fuel t' s = .ok (v', s')) :
    mapGet s'.singletons t = some w ∧
    (∀ (c' : List (Token × Registration)) (reg' : Registration) (g : Nat),
       mapGet c' t = some reg' → reg'.lifestyle = LifeStyle.Singleton →
       getInstance c' (g + 1) t s' = .ok (w, s')) ∧
    (inj.register tok cls ls ds ps).singletons = inj.singletons ∧
    (inj.registerFactory tok fac ls).singletons = inj.singletons := by
  have hp := ((getInstance_inv c fuel).1 t' s v' s' h).sglPres t w hw
  exact ⟨hp, fun c' reg' g hreg' hls' => getInstance_singleton_hit g hreg' hls' hp,
    rfl, rfl⟩

theorem claim_C9_singleton_retention_witness :
    mapGet [(0, Value.mk 10 0 [])] 0 = some (Value.mk 10 0 []) ∧
    getInstance [(0, Registration.mk (some 10) LifeStyle.Singleton [] [] none)] 1 0
      ⟨[(0, Value.mk 10 0 [])], none, 1⟩ =
      .ok (Value.mk 10 0 [], ⟨[(0, Value.mk 10 0 [])], none, 1⟩) ∧
    (mapGet (⟨[(0, Value.mk 10 0 [])], none, 1⟩ : ResState).singletons 0 =
       some (Value.mk 10 0 []) ∧
     (∀ (c' : List (Token × Registration)) (reg' : Registration) (g : Nat),
        mapGet c' 0 = some reg' → reg'.lifestyle = LifeStyle.Singleton →
        getInstance c' (g + 1) 0 (⟨[(0, Value.mk 10 0 [])], none, 1⟩ : ResState) =
          .ok (Value.mk 10 0 [], (⟨[(0, Value.mk 10 0 [])], none, 1⟩ : ResState))) ∧
     (Injector.register ⟨[], [], 0⟩ 0 99 LifeStyle.Singleton [] []).singletons =
       (⟨[], [], 0⟩ : Injector).singletons ∧
     (Injector.registerFactory ⟨[], [], 0⟩ 0 98 LifeStyle.Singleton).singletons =
       (⟨[], [], 0⟩ : Injector).singletons) := by
  have hw : mapGet [(0, Value.mk 10 0 [])] 0 = some (Value.mk 10 0 []) := rfl
  have h : getInstance [(0, Registration.mk (some 10) LifeStyle.Singleton [] [] none)] 1 0
      ⟨[(0, Value.mk 10 0 [])], none, 1⟩ =
      .ok (Value.mk 10 0 [], ⟨[(0, Value.mk 10 0 [])], none, 1⟩) := rfl
  exact ⟨hw, h, claim_C9_singleton_retention ⟨[], [], 0⟩ 0 99 98 LifeStyle.Singleton [] [] hw h⟩

/-- C10: resolution never mutates the registry â a successful direct
resolution returns a container with the registry unchanged â and during
any successful resolution the singleton cache changes only at keys whose
registration has Singleton lifetime while a supplied scope cache changes
only at keys whose registration has Scoped lifetime (so resolving a
Singleton- or PerRequest-lifetime token never adds that token to the
scope cache). -/
theorem claim_C10_resolution_frame {inj : Injector} {fuel : Nat} {t : Token}
    {v : Value} {inj' : Injector} {c : List (Token × Registration)} {f : Nat}
    {tok : Token} {s : ResState} {w : Value} {s' : ResState}
    (hTop : Injector.getInstanceTop inj fuel t = .ok (v, inj'))
    (h : getInstance c f tok s = .ok (w, s')) :
    inj'.container = inj.container ∧
    (∀ k, mapGet s'.singletons k ≠ mapGet s.singletons k →
       ∃ rk, mapGet c k = some rk ∧ rk.lifestyle = LifeStyle.Singleton) ∧
    (∀ m m' k, s.scopeCache = some m → s'.scopeCache = some m' →
       mapGet m' k ≠ mapGet m k →
       ∃ rk, mapGet c k = some rk ∧ rk.lifestyle = LifeStyle.Scoped) := by
  have hstep := (getInstance_inv c f).1 tok s w s' h
  refine ⟨?_, hstep.sglFrame, hstep.scFrame⟩
  simp only [Injector.getInstanceTop] at hTop
  split at hTop
  · simp at hTop
  · rw [Except.ok.injEq, Prod.mk.injEq] at hTop
    rw [← hTop.2]

theorem claim_C10_resolution_frame_witness :
    Injector.getInstanceTop
        ⟨[(0, Registration.mk (some 10) LifeStyle.Singleton [] [] none)], [], 0⟩ 1 0 =
      .ok (Value.mk 10 0 [],
           ⟨[(0, Registration.mk (some 10) LifeStyle.Singleton [] [] none)],
            [(0, Value.mk 10 0 [])], 1⟩) ∧
    getInstance [(0, Registration.mk (some 10) LifeStyle.Singleton [] [] none)] 1 0
      ⟨[], none, 0⟩ = .ok (Value.mk 10 0 [], ⟨[(0, Value.mk 10 0 [])], none, 1⟩) ∧
    (⟨[(0, Registration.mk (some 10) LifeStyle.Singleton [] [] none)],
      [(0, Value.mk 10 0 [])], 1⟩ : Injector).container =
      (⟨[(0, Registration.mk (some 10) LifeStyle.Singleton [] [] none)], [], 0⟩ :
        Injector).container := by
  have hTop : Injector.getInstanceTop
      ⟨[(0, Registration.mk (some 10) LifeStyle.Singleton [] [] none)], [], 0⟩ 1 0 =
      .ok (Value.mk 10 0 [],
           ⟨[(0, Registration.mk (some 10) LifeStyle.Singleton [] [] none)],
            [(0, Value.mk 10 0 [])], 1⟩) := rfl
  have h : getInstance [(0, Registration.mk (some 10) LifeStyle.Singleton [] [] none)] 1 0
      ⟨[], none, 0⟩ = .ok (Value.mk 10 0 [], ⟨[(0, Value.mk 10 0 [])], none, 1⟩) := rfl
  exact ⟨hTop, h, (claim_C10_resolution_frame hTop h).1⟩

/-- C3: constructor-style building propagates the caller's scope context
through every recursive dependency resolution.  For a Scoped
constructor-style token whose declared dependencies are all registered as
Singletons: after a first resolution in a fresh scope S1, every further
resolution in S1 returns the identical instance and changes nothing;
a resolution in a second fresh scope S2 returns a distinct instance; and
the two instances were built with the identical dependency argument list
â the same singleton dependency instances, shared across both scopes â
followed by the same literal parameters. -/
theorem claim_C3_scope_propagation {c : List (Token × Registration)} {p : Token}
    {regP : Registration} {sg₀ : List (Token × Value)} {n₀ : Nat}
    {f₁ f₃ : Nat} {v₁ v₃ : Value} {s₁ s₃ : ResState}
    (hreg : mapGet c p = some regP) (hls : regP.lifestyle = LifeStyle.Scoped)
    (hfac : regP.factory = none)
    (hdeps : ∀ d ∈ regP.dependencies,
       ∃ rd, mapGet c d = some rd ∧ rd.lifestyle = LifeStyle.Singleton)
    (h₁ : getInstance c f₁ p ⟨sg₀, some Injector.createScope, n₀⟩ = .ok (v₁, s₁))
    (h₃ : getInstance c f₃ p ⟨s₁.singletons, some Injector.createScope, s₁.nextId⟩ =
      .ok (v₃, s₃)) :
    (∀ g, getInstance c (g + 1) p s₁ = .ok (v₁, s₁)) ∧
    v₃ ≠ v₁ ∧
    ∃ ws : List Value,
      v₁ = Value.mk (regP.implementation.getD 0) v₁.id
             (ws.map Value.toArg ++ regP.constructorParams) ∧
      v₃ = Value.mk (regP.implementation.getD 0) v₃.id
             (ws.map Value.toArg ++ regP.constructorParams) ∧
      v₁.id ≠ v₃.id := by
  obtain ⟨k₁, rfl⟩ := getInstance_fuel_pos h₁
  obtain ⟨k₃, rfl⟩ := getInstance_fuel_pos h₃
  have hm₁ : (⟨sg₀, some Injector.createScope, n₀⟩ : ResState).scopeCache =
      some Injector.createScope := rfl
  have hmiss : mapGet Injector.createScope p = none := rfl
  obtain ⟨sB, cache', hcr, hsc₁, rfl⟩ := getInstance_scoped_build hreg hls hm₁ hmiss h₁
  obtain ⟨ws, sA, hdres, hv₁, hsB⟩ := createInstance_ctor hfac hcr
  subst hsB
  have hsc₂ : ({ { sA with nextId := sA.nextId + 1 } with
      scopeCache := some (mapSet cache' p v₁) } : ResState).scopeCache =
      some (mapSet cache' p v₁) := rfl
  have hhitS1 : ∀ g, getInstance c (g + 1) p
      ({ { sA with nextId := sA.nextId + 1 } with
        scopeCache := some (mapSet cache' p v₁) }) =
      .ok (v₁, { { sA with nextId := sA.nextId + 1 } with
        scopeCache := some (mapSet cache' p v₁) }) :=
    fun g => getInstance_scoped_hit g hreg hls hsc₂ (mapGet_set_self cache' p v₁)
  have hm₃ : (⟨({ { sA with nextId := sA.nextId + 1 } with
      scopeCache := some (mapSet cache' p v₁) } : ResState).singletons,
      some Injector.createScope,
      ({ { sA with nextId := sA.nextId + 1 } with
        scopeCache := some (mapSet cache' p v₁) } : ResState).nextId⟩ :
        ResState).scopeCache = some Injector.createScope := rfl
  obtain ⟨sB₃, cache₃, hcr₃, hsc₃, rfl⟩ := getInstance_scoped_build hreg hls hm₃ hmiss h₃
  obtain ⟨ws₃, sA₃, hdres₃, hv₃, hsB₃⟩ := createInstance_ctor hfac hcr₃
  have hforall : List.Forall₂ (fun d w => mapGet sA.singletons d = some w)
      regP.dependencies ws := resolveDeps_singleton_cached hdeps hdres
  have hforall' : List.Forall₂ (fun d w =>
      mapGet (⟨({ { sA with nextId := sA.nextId + 1 } with
        scopeCache := some (mapSet cache' p v₁) } : ResState).singletons,
        some Injector.createScope,
        ({ { sA with nextId := sA.nextId + 1 } with
          scopeCache := some (mapSet cache' p v₁) } : ResState).nextId⟩ :
          ResState).singletons d = some w) regP.dependencies ws := hforall
  obtain ⟨rfl, rfl⟩ := resolveDeps_all_hits hdeps hforall' hdres₃
  have hne : v₁.id ≠ v₃.id := by
    rw [hv₁, hv₃]
    exact Nat.ne_of_lt (Nat.lt_succ_self sA.nextId)
  refine ⟨hhitS1, fun he => hne (congrArg Value.id he).symm, ws₃, ?_, ?_, hne⟩
  · rw [hv₁]
  · rw [hv₃]

theorem claim_C3_scope_propagation_witness :
    mapGet [(1, Registration.mk (some 11) LifeStyle.Singleton [] [] none),
            (2, Registration.mk (some 12) LifeStyle.Singleton [] [] none),
            (3, Registration.mk (some 13) LifeStyle.Scoped [1, 2] [] none)] 3 =
      some (Registration.mk (some 13) LifeStyle.Scoped [1, 2] [] none) ∧
    getInstance [(1, Registration.mk (some 11) LifeStyle.Singleton [] [] none),
                 (2, Registration.mk (some 12) LifeStyle.Singleton [] [] none),
                 (3, Registration.mk (some 13) LifeStyle.Scoped [1, 2] [] none)] 10 3
      ⟨[], some Injector.createScope, 0⟩ =
      .ok (Value.mk 13 2 [Arg.ref 0, Arg.ref 1],
           ⟨[(2, Value.mk 12 1 []), (1, Value.mk 11 0 [])],
            some [(3, Value.mk 13 2 [Arg.ref 0, Arg.ref 1])], 3⟩) ∧
    getInstance [(1, Registration.mk (some 11) LifeStyle.Singleton [] [] none),
                 (2, Registration.mk (some 12) LifeStyle.Singleton [] [] none),
                 (3, Registration.mk (some 13) LifeStyle.Scoped [1, 2] [] none)] 10 3
      ⟨[(2, Value.mk 12 1 []), (1, Value.mk 11 0 [])], some Injector.createScope, 3⟩ =
      .ok (Value.mk 13 3 [Arg.ref 0, Arg.ref 1],
           ⟨[(2, Value.mk 12 1 []), (1, Value.mk 11 0 [])],
            some [(3, Value.mk 13 3 [Arg.ref 0, Arg.ref 1])], 4⟩) ∧
    (Value.mk 13 3 [Arg.ref 0, Arg.ref 1] ≠ Value.mk 13 2 [Arg.ref 0, Arg.ref 1] ∧
     ∀ g, getInstance [(1, Registration.mk (some 11) LifeStyle.Singleton [] [] none),
                 (2, Registration.mk (some 12) LifeStyle.Singleton [] [] none),
                 (3, Registration.mk (some 13) LifeStyle.Scoped [1, 2] [] none)] (g + 1) 3
        ⟨[(2, Value.mk 12 1 []), (1, Value.mk 11 0 [])],
         some [(3, Value.mk 13 2 [Arg.ref 0, Arg.ref 1])], 3⟩ =
        .ok (Value.mk 13 2 [Arg.ref 0, Arg.ref 1],
             ⟨[(2, Value.mk 12 1 []), (1, Value.mk 11 0 [])],
              some [(3, Value.mk 13 2 [Arg.ref 0, Arg.ref 1])], 3⟩)) := by
  have hreg : mapGet [(1, Registration.mk (some 11) LifeStyle.Singleton [] [] none),
      (2, Registration.mk (some 12) LifeStyle.Singleton [] [] none),
      (3, Registration.mk (some 13) LifeStyle.Scoped [1, 2] [] none)] 3 =
      some (Registration.mk (some 13) LifeStyle.Scoped [1, 2] [] none) := rfl
  have hdeps : ∀ d ∈ (Registration.mk (some 13) LifeStyle.Scoped [1, 2] []
      (none : Option Nat)).dependencies,
      ∃ rd, mapGet [(1, Registration.mk (some 11) LifeStyle.Singleton [] [] none),
        (2, Registration.mk (some 12) LifeStyle.Singleton [] [] none),
        (3, Registration.mk (some 13) LifeStyle.Scoped [1, 2] [] none)] d = some rd ∧
        rd.lifestyle = LifeStyle.Singleton := by
    intro d hd
    replace hd : d ∈ [1, 2] := hd
    rcases List.mem_cons.mp hd with rfl | hd
    · exact ⟨Registration.mk (some 11) LifeStyle.Singleton [] [] none, rfl, rfl⟩
    · rcases List.mem_cons.mp hd with rfl | hd
      · exact ⟨Registration.mk (some 12) LifeStyle.Singleton [] [] none, rfl, rfl⟩
      · cases hd
  have h₁ : getInstance [(1, Registration.mk (some 11) LifeStyle.Singleton [] [] none),
      (2, Registration.mk (some 12) LifeStyle.Singleton [] [] none),
      (3, Registration.mk (some 13) LifeStyle.Scoped [1, 2] [] none)] 10 3
      ⟨[], some Injector.createScope, 0⟩ =
      .ok (Value.mk 13 2 [Arg.ref 0, Arg.ref 1],
           ⟨[(2, Value.mk 12 1 []), (1, Value.mk 11 0 [])],
            some [(3, Value.mk 13 2 [Arg.ref 0, Arg.ref 1])], 3⟩) := rfl
  have h₃ : getInstance [(1, Registration.mk (some 11) LifeStyle.Singleton [] [] none),
      (2, Registration.mk (some 12) LifeStyle.Singleton [] [] none),
      (3, Registration.mk (some 13) LifeStyle.Scoped [1, 2] [] none)] 10 3
      ⟨[(2, Value.mk 12 1 []), (1, Value.mk 11 0 [])], some Injector.createScope, 3⟩ =
      .ok (Value.mk 13 3 [Arg.ref 0, Arg.ref 1],
           ⟨[(2, Value.mk 12 1 []), (1, Value.mk 11 0 [])],
            some [(3, Value.mk 13 3 [Arg.ref 0, Arg.ref 1])], 4⟩) := rfl
  have hc := claim_C3_scope_propagation hreg rfl rfl hdeps h₁ h₃
  exact ⟨hreg, h₁, h₃, hc.2.1, hc.1⟩

end DI
